import Mathlib

/-!
Verification of the go-corenglish task-management service.

The Go sources are shallowly embedded: the tasks table is a list of rows,
GORM queries become list operations, UUIDs and timestamps become naturals,
Go `int` becomes `Int` (the values involved stay far from 64-bit overflow),
and fallible operations return `Except`/`Option`.  The package
`internal/commons/response` is not among the sources; its error
constructors are modelled from the spec's error taxonomy and marked as such.
-/

namespace TaskApp

/-- A row of the `tasks` table (internal/models/task.go).  `Status` is a Go
string; `Description` is a nullable column (`*string`). -/
structure Task where
  id : Nat
  title : String
  description : Option String
  status : String
  userId : Nat
  createdAt : Nat
  updatedAt : Nat
deriving DecidableEq, Repr

/-- TaskStatus.IsValid (internal/enum/task_enum.go). -/
def statusIsValid (s : String) : Bool :=
  s == ("TO_DO") || s == ("IN_PROGRESS") || s == ("DONE")

/-- Errors a repository operation can signal.  The deterministic embedding
has no failing database, so only the "record not found" outcome remains
(gorm.ErrRecordNotFound / RowsAffected == 0 in part_004). -/
inductive RepoError where
  | notFound
deriving DecidableEq, Repr

/-- taskRepository.GetByID (part_004, lines 42-55): `WHERE id = ? AND
user_id = ?`, first matching row. -/
def repoGetByID (db : List Task) (id userId : Nat) : Option Task :=
  db.find? (fun t => t.id == id && t.userId == userId)

/-- The `WHERE user_id = ?` (and optional `status = ?`) filter shared by the
count and the page query of taskRepository.GetAll (part_004, lines 63-67). -/
def rowsForUser (db : List Task) (userId : Nat) (status : String) : List Task :=
  db.filter (fun t => t.userId == userId && (status == ("") || t.status == status))

/-- The SQL `ORDER BY created_at DESC` of taskRepository.GetAll: descending
comparison on `created_at` only; no further sort key. -/
def createdDescOrder (a b : Task) : Prop := b.createdAt ≤ a.createdAt

instance : DecidableRel createdDescOrder := fun a b => Nat.decLe b.createdAt a.createdAt

instance : IsTotal Task createdDescOrder := ⟨fun a b => Nat.le_total b.createdAt a.createdAt⟩

instance : IsTrans Task createdDescOrder := ⟨fun _ _ _ h1 h2 => Nat.le_trans h2 h1⟩

/-- taskRepository.GetAll (part_004, lines 57-89): count under the filter,
then `ORDER BY created_at DESC OFFSET (page-1)*limit LIMIT limit`.  SQL
leaves the order of ties unspecified; a stable sort over the row list
models it (each physical row order realises one possible tie order).
Upstream guarantees `page ≥ 1` and `1 ≤ limit ≤ 100`. -/
def repoGetAll (db : List Task) (userId : Nat) (status : String) (page limit : Nat) :
    List Task × Nat :=
  let rows := rowsForUser db userId status
  let total := rows.length
  let sorted := List.insertionSort createdDescOrder rows
  (((sorted.drop ((page - 1) * limit)).take limit), total)

/-- GORM `Updates` with a struct writes only the non-zero fields: a nil
`Description` pointer, an empty string, or a zero number is skipped, and
`updated_at` is set to the write time (part_004, line 92 together with the
schema trigger). -/
def applyUpdates (t u : Task) (now : Nat) : Task :=
  { id := t.id
    title := if u.title == ("") then t.title else u.title
    description := match u.description with
      | none => t.description
      | some d => some d
    status := if u.status == ("") then t.status else u.status
    userId := if u.userId == 0 then t.userId else u.userId
    createdAt := if u.createdAt == 0 then t.createdAt else u.createdAt
    updatedAt := now }

/-- taskRepository.Update (part_004, lines 91-105): `WHERE id = ? AND
user_id = ?`; zero rows affected is reported as "task not found". -/
def repoUpdate (db : List Task) (u : Task) (now : Nat) : Except RepoError (List Task) :=
  if (db.filter (fun t => t.id == u.id && t.userId == u.userId)).isEmpty then
    Except.error RepoError.notFound
  else
    Except.ok (db.map (fun t =>
      if t.id == u.id && t.userId == u.userId then applyUpdates t u now else t))

/-- taskRepository.Delete (part_004, lines 107-121): `WHERE id = ? AND
user_id = ?`; zero rows affected is reported as "task not found". -/
def repoDelete (db : List Task) (id userId : Nat) : Except RepoError (List Task) :=
  if (db.filter (fun t => !(t.id == id && t.userId == userId))).length == db.length then
    Except.error RepoError.notFound
  else Except.ok (db.filter (fun t => !(t.id == id && t.userId == userId)))

/-- C1: for every user V and every task T whose owner differs from V, the
store's read never returns T, the list never contains T, and update and
delete invoked with V's user id leave T in place — every query carries the
`user_id = V` predicate. -/
theorem ownershipIsolation (db : List Task) (v : Nat) (t : Task)
    (ht : t ∈ db) (hv : t.userId ≠ v) :
    (∀ id r, repoGetByID db id v = some r → r ≠ t)
    ∧ (∀ st p l, t ∉ (repoGetAll db v st p l).1)
    ∧ (∀ u now db2, u.userId = v → repoUpdate db u now = Except.ok db2 → t ∈ db2)
    ∧ (∀ id db2, repoDelete db id v = Except.ok db2 → t ∈ db2) := by
  refine ⟨?_, ?_, ?_, ?_⟩
  · intro id r hr hrt
    have hp := List.find?_some hr
    simp only [Bool.and_eq_true, beq_iff_eq] at hp
    exact hv (hrt ▸ hp.2)
  · intro st p l hmem
    have hsub : (((List.insertionSort createdDescOrder (rowsForUser db v st)).drop
        ((p - 1) * l)).take l).Sublist (List.insertionSort createdDescOrder (rowsForUser db v st)) :=
      (List.take_sublist _ _).trans (List.drop_sublist _ _)
    have hmem2 : t ∈ List.insertionSort createdDescOrder (rowsForUser db v st) :=
      hsub.mem hmem
    have hmem3 : t ∈ rowsForUser db v st :=
      (List.perm_insertionSort createdDescOrder (rowsForUser db v st)).mem_iff.mp hmem2
    have hp := (List.mem_filter.mp hmem3).2
    simp only [Bool.and_eq_true, beq_iff_eq] at hp
    exact hv hp.1
  · intro u now db2 huv hok
    unfold repoUpdate at hok
    split at hok
    · exact absurd hok (by simp)
    · have hdb2 : db2 = db.map (fun t =>
          if t.id == u.id && t.userId == u.userId then applyUpdates t u now else t) := by
        injection hok with h
        exact h.symm
      subst hdb2
      have hne : (t.userId == u.userId) = false := by
        simp only [beq_eq_false_iff_ne, ne_eq]
        exact fun h => hv (h.trans huv)
      have hmm := List.mem_map_of_mem
        (fun s => if s.id == u.id && s.userId == u.userId then applyUpdates s u now else s) ht
      simp only [hne, Bool.and_false, if_neg] at hmm
      simpa using hmm
  · intro id db2 hok
    unfold repoDelete at hok
    split at hok
    · exact absurd hok (by simp)
    · have hdb2 : db2 = db.filter (fun t => !(t.id == id && t.userId == v)) := by
        injection hok with h
        exact h.symm
      subst hdb2
      refine List.mem_filter.mpr ⟨ht, ?_⟩
      have : (t.userId == v) = false := by
        simp only [beq_eq_false_iff_ne, ne_eq]
        exact hv
      simp [this]

/-- Concrete task owned by user 7 used only to witness ownershipIsolation. -/
def tC1 : Task :=
  { id := 10, title := ("A"), description := none, status := ("TO_DO")
    userId := 7, createdAt := 1, updatedAt := 1 }

/-- Witness for C1 at a concrete store: user 3 cannot see or touch user 7's task. -/
theorem ownershipIsolationWitness :
    (∀ id r, repoGetByID [tC1] id 3 = some r → r ≠ tC1)
    ∧ (∀ st p l, tC1 ∉ (repoGetAll [tC1] 3 st p l).1)
    ∧ (∀ u now db2, u.userId = 3 → repoUpdate [tC1] u now = Except.ok db2 → tC1 ∈ db2)
    ∧ (∀ id db2, repoDelete [tC1] id 3 = Except.ok db2 → tC1 ∈ db2) :=
  ownershipIsolation [tC1] 3 tC1 (by decide) (by decide)

/-- A typed service error carrying the HTTP status the handler renders
(handlers pass custErr.StatusCode straight to the response writer). -/
structure CustomError where
  statusCode : Nat
  message : String
deriving DecidableEq, Repr

/-- Modelled from the spec: `internal/commons/response` is absent from the
sources; the spec's error taxonomy maps the `repository` kind to 500. -/
def repositoryError (msg : String) : CustomError := { statusCode := 500, message := msg }

/-- Modelled from the spec: `internal/commons/response` is absent from the
sources; the spec maps `validation`/bad-input to 400. -/
def badRequestError (msg : String) : CustomError := { statusCode := 400, message := msg }

/-- params.CreateTaskRequest (internal/params/task_request.go): `title`
required, `description` a nullable pointer, no status field. -/
structure CreateTaskRequest where
  title : String
  description : Option String
deriving DecidableEq, Repr

/-- params.UpdateTaskRequest (internal/params/task_request.go): all three
fields optional pointers. -/
structure UpdateTaskRequest where
  title : Option String
  description : Option String
  status : Option String
deriving DecidableEq, Repr

/-- params.TaskResponse (internal/params). -/
structure TaskResponse where
  id : Nat
  title : String
  description : Option String
  status : String
  createdAt : Nat
  updatedAt : Nat
deriving DecidableEq, Repr

/-- params.TasksResponse (internal/params). -/
structure TasksResponse where
  tasks : List TaskResponse
  total : Nat
  page : Int
  limit : Int
  totalPages : Int
deriving DecidableEq, Repr

/-- The TaskResponse the services assemble from a task row. -/
def taskToResponse (t : Task) : TaskResponse :=
  { id := t.id, title := t.title, description := t.description
    status := t.status, createdAt := t.createdAt, updatedAt := t.updatedAt }

/-- taskService.CreateTask (task_service.go, lines 36-63): build a row with
status TO_DO, insert it (BeforeCreate assigns the fresh id, GORM stamps the
times), answer with the row.  `newId` and `now` stand for the generated
UUID and the wall clock. -/
def serviceCreateTask (db : List Task) (userId : Nat) (req : CreateTaskRequest)
    (newId now : Nat) : Except CustomError TaskResponse × List Task :=
  let task : Task :=
    { id := newId, title := req.title, description := req.description
      status := ("TO_DO"), userId := userId, createdAt := now, updatedAt := now }
  (Except.ok (taskToResponse task), db ++ [task])

/-- taskService.GetTask (task_service.go, lines 65-83): every repository
failure — the "task not found" outcome included — is wrapped into the one
repository error. -/
def serviceGetTask (db : List Task) (taskId userId : Nat) : Except CustomError TaskResponse :=
  match repoGetByID db taskId userId with
  | none => Except.error (repositoryError ("failed to get task"))
  | some t => Except.ok (taskToResponse t)

/-- taskService.GetTasks (task_service.go, lines 85-137): clamp page and
limit, validate the status filter, query, and shape the paginated response.
`math.Ceil(float64(total)/float64(limit))` is exact integer ceiling for
these magnitudes. -/
def serviceGetTasks (db : List Task) (userId : Nat) (status : String) (page limit : Int) :
    Except CustomError TasksResponse :=
  let page := if page < 1 then 1 else page
  let limit := if limit < 1 || limit > 100 then 10 else limit
  if status != ("") && !(statusIsValid status) then
    Except.error (badRequestError (("invalid status: ") ++ status))
  else
    let qr := repoGetAll db userId status page.toNat limit.toNat
    Except.ok
      { tasks := qr.1.map taskToResponse, total := qr.2, page := page, limit := limit
        totalPages := (Int.ofNat qr.2 + limit - 1) / limit }

/-- taskService.UpdateTask (task_service.go, lines 139-182): fetch by
(id, user_id); overwrite only the fields present in the request; reject an
invalid status; write through the repository. -/
def serviceUpdateTask (db : List Task) (taskId userId : Nat) (req : UpdateTaskRequest)
    (now : Nat) : Except CustomError TaskResponse × List Task :=
  match repoGetByID db taskId userId with
  | none => (Except.error (repositoryError ("failed to get task for update")), db)
  | some t0 =>
    let t1 := match req.title with
      | none => t0
      | some s => { t0 with title := s }
    let t2 := match req.description with
      | none => t1
      | some d => { t1 with description := some d }
    match req.status with
    | some s =>
      if !(statusIsValid s) then
        (Except.error (badRequestError (("invalid status: ") ++ s)), db)
      else
        match repoUpdate db { t2 with status := s } now with
        | Except.error _ => (Except.error (repositoryError ("failed to update task")), db)
        | Except.ok db2 =>
          (Except.ok (taskToResponse { t2 with status := s, updatedAt := now }), db2)
    | none =>
      match repoUpdate db t2 now with
      | Except.error _ => (Except.error (repositoryError ("failed to update task")), db)
      | Except.ok db2 => (Except.ok (taskToResponse { t2 with updatedAt := now }), db2)

/-- taskService.DeleteTask (task_service.go, lines 184-199): every
repository failure is wrapped into the one repository error. -/
def serviceDeleteTask (db : List Task) (taskId userId : Nat) :
    Option CustomError × List Task :=
  match repoDelete db taskId userId with
  | Except.error _ => (some (repositoryError ("failed to delete task")), db)
  | Except.ok db2 => (none, db2)

/-- One JSON member of a request body: missing, an explicit null, or a value. -/
inductive JsonField (α : Type) where
  | absent
  | null
  | val (a : α)
deriving DecidableEq, Repr

/-- Go encoding/json leaves a pointer field nil both when the member is
absent and when it is an explicit JSON null, so both decode to `none`
(the `*string` fields of internal/params/task_request.go). -/
def fieldToOption : JsonField String → Option String
  | JsonField.absent => none
  | JsonField.null => none
  | JsonField.val s => some s

/-- The JSON body of PATCH /tasks/:id as sent on the wire. -/
structure UpdateBody where
  title : JsonField String
  description : JsonField String
  status : JsonField String
deriving DecidableEq, Repr

/-- ShouldBindJSON into params.UpdateTaskRequest. -/
def decodeUpdateBody (b : UpdateBody) : UpdateTaskRequest :=
  { title := fieldToOption b.title, description := fieldToOption b.description
    status := fieldToOption b.status }

/-- The JSON body of POST /tasks as sent on the wire; a `status` member is
possible on the wire even though params.CreateTaskRequest has no such field. -/
structure CreateBody where
  title : String
  description : JsonField String
  status : JsonField String
deriving DecidableEq, Repr

/-- ShouldBindJSON into params.CreateTaskRequest: encoding/json silently
drops the unknown `status` member. -/
def decodeCreateBody (b : CreateBody) : CreateTaskRequest :=
  { title := b.title, description := fieldToOption b.description }

/-- The `validate` tags of params.CreateTaskRequest checked by the handler:
`title` is required (non-empty) and at most 255 characters. -/
def validateCreateReq (r : CreateTaskRequest) : Bool :=
  r.title != ("") && decide (r.title.length ≤ 255)

/-- The `validate` tags of params.UpdateTaskRequest checked by the handler:
`title` at most 255 characters when present, `status` in the enum when
present and non-empty (omitempty skips the zero value). -/
def validateUpdateReq (r : UpdateTaskRequest) : Bool :=
  (match r.title with
   | none => true
   | some s => decide (s.length ≤ 255)) &&
  (match r.status with
   | none => true
   | some s => s == ("") || statusIsValid s)

/-- What a task handler leaves behind: the HTTP status it wrote, the task
payload when it answered one, and the store afterwards. -/
structure TaskResult where
  status : Nat
  task : Option TaskResponse
  db : List Task
deriving DecidableEq, Repr

/-- TaskHandler.CreateTask (part_002, lines 30-83): bind, validate (400 on
failure), call the service, 201 on success. -/
def handlerCreateTask (db : List Task) (uid : Nat) (body : CreateBody)
    (newId now : Nat) : TaskResult :=
  let req := decodeCreateBody body
  if !(validateCreateReq req) then { status := 400, task := none, db := db }
  else
    match serviceCreateTask db uid req newId now with
    | (Except.error e, db2) => { status := e.statusCode, task := none, db := db2 }
    | (Except.ok r, db2) => { status := 201, task := some r, db := db2 }

/-- TaskHandler.GetTask (part_002, lines 127-167): render the service error
with its own status code, else 200. -/
def handlerGetTask (db : List Task) (taskId uid : Nat) : TaskResult :=
  match serviceGetTask db taskId uid with
  | Except.error e => { status := e.statusCode, task := none, db := db }
  | Except.ok r => { status := 200, task := some r, db := db }

/-- TaskHandler.UpdateTask (part_002, lines 169-235): bind, validate (400 on
failure, store untouched), call the service, 200 on success. -/
def handlerUpdateTask (db : List Task) (taskId uid : Nat) (body : UpdateBody)
    (now : Nat) : TaskResult :=
  let req := decodeUpdateBody body
  if !(validateUpdateReq req) then { status := 400, task := none, db := db }
  else
    match serviceUpdateTask db taskId uid req now with
    | (Except.error e, db2) => { status := e.statusCode, task := none, db := db2 }
    | (Except.ok r, db2) => { status := 200, task := some r, db := db2 }

/-- TaskHandler.DeleteTask (part_002, lines 237-276). -/
def handlerDeleteTask (db : List Task) (taskId uid : Nat) : TaskResult :=
  match serviceDeleteTask db taskId uid with
  | (some e, db2) => { status := e.statusCode, task := none, db := db2 }
  | (none, db2) => { status := 200, task := none, db := db2 }

/-- The `id` column is the primary key, so distinct rows carry distinct ids. -/
def idsDistinct (db : List Task) : Prop := db.Pairwise (fun a b => a.id ≠ b.id)

instance (db : List Task) : Decidable (idsDistinct db) := by
  unfold idsDistinct
  exact List.instDecidablePairwise db

/-- Two rows of a primary-keyed table with the same id are the same row. -/
theorem eq_of_mem_of_id_eq {db : List Task} {a b : Task}
    (hwf : idsDistinct db) (ha : a ∈ db) (hb : b ∈ db) (hid : a.id = b.id) : a = b := by
  by_contra hne
  exact (List.Pairwise.forall (fun x y h => (h ∘ Eq.symm)) hwf ha hb hne) hid

/-- On a primary-keyed table, GetByID at a present row's own keys returns
that row. -/
theorem repoGetByID_self {db : List Task} {t : Task}
    (hwf : idsDistinct db) (ht : t ∈ db) : repoGetByID db t.id t.userId = some t := by
  unfold repoGetByID
  cases hfind : db.find? (fun s => s.id == t.id && s.userId == t.userId) with
  | none =>
    have := List.find?_eq_none.mp hfind t ht
    simp at this
  | some t0 =>
    have hmem := List.mem_of_find?_eq_some hfind
    have hp := List.find?_some hfind
    simp only [Bool.and_eq_true, beq_iff_eq] at hp
    exact congrArg some (eq_of_mem_of_id_eq hwf hmem ht hp.1)

/-- C2 (amended): a protected read, update, or delete that matches no row is
surfaced through the one repository error, rendered as HTTP 500; the
store's "not found" outcome is not mapped to 404. -/
theorem missMapsToRepositoryError (db : List Task) (tid uid : Nat) :
    (repoGetByID db tid uid = none → (handlerGetTask db tid uid).status = 500)
    ∧ (∀ body now, validateUpdateReq (decodeUpdateBody body) = true →
        repoGetByID db tid uid = none → (handlerUpdateTask db tid uid body now).status = 500)
    ∧ (repoDelete db tid uid = Except.error RepoError.notFound →
        (handlerDeleteTask db tid uid).status = 500) := by
  refine ⟨?_, ?_, ?_⟩
  · intro h
    simp [handlerGetTask, serviceGetTask, h, repositoryError]
  · intro body now hv h
    simp [handlerUpdateTask, hv, serviceUpdateTask, h, repositoryError]
  · intro h
    simp [handlerDeleteTask, serviceDeleteTask, h, repositoryError]

/-- Task of user 1 used only by the C2 counterexample. -/
def tC2 : Task :=
  { id := 10, title := ("A"), description := none, status := ("TO_DO")
    userId := 1, createdAt := 1, updatedAt := 1 }

/-- Counterexample to C2 as stated: user 2 reading user 1's task (a miss by
ownership) receives HTTP 500, not the 404 the claim requires. -/
theorem missNotMappedTo404Cex :
    (handlerGetTask [tC2] 10 2).status = 500
    ∧ (handlerGetTask [tC2] 10 2).status ≠ 404 := by decide

/-- Witness for missMapsToRepositoryError on the empty store. -/
theorem missMapsToRepositoryErrorWitness :
    (handlerGetTask [] 10 2).status = 500
    ∧ (handlerUpdateTask [] 10 2
        { title := JsonField.absent, description := JsonField.absent
          status := JsonField.absent } 5).status = 500
    ∧ (handlerDeleteTask [] 10 2).status = 500 :=
  ⟨(missMapsToRepositoryError [] 10 2).1 rfl,
   (missMapsToRepositoryError [] 10 2).2.1
     { title := JsonField.absent, description := JsonField.absent
       status := JsonField.absent } 5 rfl rfl,
   (missMapsToRepositoryError [] 10 2).2.2 rfl⟩

/-- All rows of the store carry a valid status. -/
def dbStatusesValid (db : List Task) : Prop := ∀ t ∈ db, statusIsValid t.status = true

instance (db : List Task) : Decidable (dbStatusesValid db) :=
  List.decidableBAll _ db

/-- repoUpdate writes only rows whose status is the caller's (checked) one
or the row's previous one, so validity of every stored status survives. -/
theorem repoUpdate_preserves_valid {db db2 : List Task} {u : Task} {now : Nat}
    (hdb : dbStatusesValid db) (hu : statusIsValid u.status = true ∨ u.status = (""))
    (hok : repoUpdate db u now = Except.ok db2) : dbStatusesValid db2 := by
  unfold repoUpdate at hok
  split at hok
  · exact absurd hok (by simp)
  · have hdb2 : db2 = db.map (fun t =>
        if t.id == u.id && t.userId == u.userId then applyUpdates t u now else t) := by
      injection hok with h
      exact h.symm
    subst hdb2
    intro t htmem
    obtain ⟨t0, ht0, hmap⟩ := List.mem_map.mp htmem
    by_cases hc : (t0.id == u.id && t0.userId == u.userId) = true
    · rw [if_pos hc] at hmap
      subst hmap
      show statusIsValid (applyUpdates t0 u now).status = true
      unfold applyUpdates
      by_cases he : (u.status == ("")) = true
      · simpa [he] using hdb t0 ht0
      · rcases hu with hu | hu
        · simpa [he] using hu
        · exact absurd (beq_iff_eq.mpr hu) (by simpa using he)
    · rw [if_neg hc] at hmap
      subst hmap
      exact hdb t0 ht0

/-- C3 (amended): an update request carrying a non-empty status outside the
enum is rejected with 400 before any write; an empty status passes the
omitempty validator but is still rejected by the service before any write;
a create body's status member is discarded by decoding, the stored status
being TO_DO; consequently every stored status stays a valid enum value
under create, update, and delete. -/
theorem invalidStatusRejection (db : List Task) :
    (∀ tid uid body now s, (decodeUpdateBody body).status = some s →
       statusIsValid s = false → s ≠ ("") →
       handlerUpdateTask db tid uid body now = { status := 400, task := none, db := db })
    ∧ (∀ uid body newId now t, t ∈ (handlerCreateTask db uid body newId now).db →
       t ∈ db ∨ t.status = ("TO_DO"))
    ∧ (dbStatusesValid db →
       (∀ uid body newId now, dbStatusesValid (handlerCreateTask db uid body newId now).db)
       ∧ (∀ tid uid body now, dbStatusesValid (handlerUpdateTask db tid uid body now).db)
       ∧ (∀ tid uid, dbStatusesValid (handlerDeleteTask db tid uid).db)) := by
  refine ⟨?_, ?_, ?_⟩
  · intro tid uid body now s hsome hinvalid hne
    have hv : validateUpdateReq (decodeUpdateBody body) = false := by
      unfold validateUpdateReq
      rw [hsome]
      simp [hinvalid, hne]
    simp [handlerUpdateTask, hv]
  · intro uid body newId now t hmem
    unfold handlerCreateTask at hmem
    by_cases hv : validateCreateReq (decodeCreateBody body) = true
    · simp only [hv, Bool.not_true, if_neg (by decide : ¬false = true),
        serviceCreateTask] at hmem
      rcases List.mem_append.mp hmem with h | h
      · exact Or.inl h
      · right
        rcases List.mem_singleton.mp h with rfl
        rfl
    · rw [Bool.not_eq_true] at hv
      simp only [hv, Bool.not_false, if_pos rfl] at hmem
      exact Or.inl hmem
  · intro hdb
    refine ⟨?_, ?_, ?_⟩
    · intro uid body newId now t hmem
      unfold handlerCreateTask at hmem
      by_cases hv : validateCreateReq (decodeCreateBody body) = true
      · simp only [hv, Bool.not_true, if_neg (by decide : ¬false = true),
          serviceCreateTask] at hmem
        rcases List.mem_append.mp hmem with h | h
        · exact hdb t h
        · rcases List.mem_singleton.mp h with rfl
          rfl
      · rw [Bool.not_eq_true] at hv
        simp only [hv, Bool.not_false, if_pos rfl] at hmem
        exact hdb t hmem
    · intro tid uid body now
      unfold handlerUpdateTask
      by_cases hv : validateUpdateReq (decodeUpdateBody body) = true
      · simp only [hv, Bool.not_true, if_neg (by decide : ¬false = true)]
        unfold serviceUpdateTask
        cases hfind : repoGetByID db tid uid with
        | none => simpa using hdb
        | some t0 =>
          have ht0db : t0 ∈ db := List.mem_of_find?_eq_some hfind
          have ht0v : statusIsValid t0.status = true := hdb t0 ht0db
          simp only []
          cases hst : (decodeUpdateBody body).status with
          | none =>
            simp only [hst]
            cases hup : repoUpdate db
                (match (decodeUpdateBody body).description with
                 | none => match (decodeUpdateBody body).title with
                   | none => t0
                   | some s => { t0 with title := s }
                 | some d => { (match (decodeUpdateBody body).title with
                   | none => t0
                   | some s => { t0 with title := s }) with description := some d }) now with
            | error e => simpa [hst, hup] using hdb
            | ok db2 =>
              have : dbStatusesValid db2 := by
                refine repoUpdate_preserves_valid hdb ?_ hup
                left
                cases hd : (decodeUpdateBody body).description <;>
                  cases htl : (decodeUpdateBody body).title <;> simpa [hd, htl] using ht0v
              simpa [hst, hup] using this
          | some s =>
            by_cases hsv : statusIsValid s = true
            · simp only [hst, hsv, Bool.not_true, if_neg (by decide : ¬false = true)]
              cases hup : repoUpdate db
                  { (match (decodeUpdateBody body).description with
                     | none => match (decodeUpdateBody body).title with
                       | none => t0
                       | some s2 => { t0 with title := s2 }
                     | some d => { (match (decodeUpdateBody body).title with
                       | none => t0
                       | some s2 => { t0 with title := s2 }) with description := some d })
                    with status := s } now with
              | error e => simpa [hst, hsv, hup] using hdb
              | ok db2 =>
                have : dbStatusesValid db2 := by
                  refine repoUpdate_preserves_valid hdb ?_ hup
                  left
                  cases hd : (decodeUpdateBody body).description <;>
                    cases htl : (decodeUpdateBody body).title <;> simpa [hd, htl] using hsv
                simpa [hst, hsv, hup] using this
            · rw [Bool.not_eq_true] at hsv
              simpa [hst, hsv] using hdb
      · rw [Bool.not_eq_true] at hv
        simpa [hv] using hdb
    · intro tid uid t hmem
      unfold handlerDeleteTask serviceDeleteTask at hmem
      cases hdel : repoDelete db tid uid with
      | error e => exact hdb t (by simpa [hdel] using hmem)
      | ok db2 =>
        have hmem2 : t ∈ db2 := by simpa [hdel] using hmem
        unfold repoDelete at hdel
        split at hdel
        · exact absurd hdel (by simp)
        · have : db2 = db.filter (fun s => !(s.id == tid && s.userId == uid)) := by
            injection hdel with h
            exact h.symm
          subst this
          exact hdb t (List.mem_filter.mp hmem2).1

/-- Create body carrying an out-of-enum status, used only by the C3
counterexample. -/
def bodyC3 : CreateBody :=
  { title := ("A"), description := JsonField.absent, status := JsonField.val ("WAT") }

/-- Counterexample to C3 as stated: a create request carrying status WAT is
answered 201 (not the required 400) — the unknown member is dropped and the
task is stored with status TO_DO. -/
theorem createIgnoresStatusCex :
    (handlerCreateTask [] 7 bodyC3 1 2).status = 201
    ∧ (handlerCreateTask [] 7 bodyC3 1 2).status ≠ 400
    ∧ (handlerCreateTask [] 7 bodyC3 1 2).db.map Task.status = [("TO_DO")] := by decide

/-- Body used only by the C3 witness. -/
def bodyC3W : UpdateBody :=
  { title := JsonField.absent, description := JsonField.absent
    status := JsonField.val ("WAT") }

/-- Witness for invalidStatusRejection at concrete inputs. -/
theorem invalidStatusRejectionWitness :
    (handlerUpdateTask [tC1] 10 7 bodyC3W 5 =
      { status := 400, task := none, db := [tC1] })
    ∧ (tC1 ∈ [tC1] ∨ tC1.status = ("TO_DO"))
    ∧ (∀ tid uid, dbStatusesValid (handlerDeleteTask [tC1] tid uid).db) :=
  ⟨(invalidStatusRejection [tC1]).1 10 7 bodyC3W 5 ("WAT") rfl rfl (by decide),
   (invalidStatusRejection [tC1]).2.1 7 bodyC3 1 2 tC1 (by decide),
   ((invalidStatusRejection [tC1]).2.2 (by decide)).2.2⟩

/-- repoUpdate at the keys of a present row takes the non-empty branch. -/
theorem repoUpdate_of_mem {db : List Task} {u t : Task} {now : Nat}
    (ht : t ∈ db) (hid : u.id = t.id) (huid : u.userId = t.userId) :
    repoUpdate db u now = Except.ok (db.map (fun s =>
      if s.id == u.id && s.userId == u.userId then applyUpdates s u now else s)) := by
  unfold repoUpdate
  have hmem : t ∈ db.filter (fun s => s.id == u.id && s.userId == u.userId) :=
    List.mem_filter.mpr ⟨ht, by simp [hid, huid]⟩
  have hne : db.filter (fun s => s.id == u.id && s.userId == u.userId) ≠ [] :=
    List.ne_nil_of_mem hmem
  rw [if_neg]
  simpa using hne

/-- fieldToOption hits `some` exactly on a value member. -/
theorem fieldToOption_eq_some {f : JsonField String} {s : String} :
    fieldToOption f = some s ↔ f = JsonField.val s := by
  cases f <;> simp [fieldToOption]

/-- serviceUpdateTask on a present row: the store becomes a pointwise map
touching only the (id, user_id) row, and the written row's fields come from
a task `u` that preserves every field the request omitted. -/
theorem serviceUpdateTask_spec (db : List Task) (t : Task) (req : UpdateTaskRequest)
    (now : Nat) (hwf : idsDistinct db) (ht : t ∈ db)
    (hstat : ∀ s, req.status = some s → statusIsValid s = true) :
    ∃ u : Task,
      serviceUpdateTask db t.id t.userId req now =
        (Except.ok (taskToResponse { u with updatedAt := now }),
          db.map (fun r => if r.id == t.id && r.userId == t.userId then applyUpdates r u now else r))
      ∧ u.id = t.id ∧ u.userId = t.userId ∧ u.createdAt = t.createdAt
      ∧ (req.title = none → u.title = t.title)
      ∧ (req.description = none → u.description = t.description)
      ∧ (req.status = none → u.status = t.status) := by
  have hfind := repoGetByID_self hwf ht
  cases htl : req.title with
  | none =>
    cases hd : req.description with
    | none =>
      cases hst : req.status with
      | none =>
        refine ⟨t, ?_, rfl, rfl, rfl, fun _ => rfl, fun _ => rfl, fun _ => rfl⟩
        unfold serviceUpdateTask
        rw [hfind]
        simp only [htl, hd, hst]
        rw [@repoUpdate_of_mem db t t now ht rfl rfl]
      | some s =>
        have hsv := hstat s hst
        refine ⟨{ t with status := s }, ?_, rfl, rfl, rfl, fun _ => rfl, fun _ => rfl,
          fun h => by simp [hst] at h⟩
        unfold serviceUpdateTask
        rw [hfind]
        simp only [htl, hd, hst]
        rw [if_neg (by simp [hsv])]
        rw [@repoUpdate_of_mem db { t with status := s } t now ht rfl rfl]
    | some d =>
      cases hst : req.status with
      | none =>
        refine ⟨{ t with description := some d }, ?_, rfl, rfl, rfl, fun _ => rfl,
          fun h => by simp [hd] at h, fun _ => rfl⟩
        unfold serviceUpdateTask
        rw [hfind]
        simp only [htl, hd, hst]
        rw [@repoUpdate_of_mem db { t with description := some d } t now ht rfl rfl]
      | some s =>
        have hsv := hstat s hst
        refine ⟨{ t with description := some d, status := s }, ?_, rfl, rfl, rfl,
          fun _ => rfl, fun h => by simp [hd] at h, fun h => by simp [hst] at h⟩
        unfold serviceUpdateTask
        rw [hfind]
        simp only [htl, hd, hst]
        rw [if_neg (by simp [hsv])]
        rw [@repoUpdate_of_mem db { t with description := some d, status := s } t now ht rfl rfl]
  | some a =>
    cases hd : req.description with
    | none =>
      cases hst : req.status with
      | none =>
        refine ⟨{ t with title := a }, ?_, rfl, rfl, rfl, fun h => by simp [htl] at h,
          fun _ => rfl, fun _ => rfl⟩
        unfold serviceUpdateTask
        rw [hfind]
        simp only [htl, hd, hst]
        rw [@repoUpdate_of_mem db { t with title := a } t now ht rfl rfl]
      | some s =>
        have hsv := hstat s hst
        refine ⟨{ t with title := a, status := s }, ?_, rfl, rfl, rfl,
          fun h => by simp [htl] at h, fun _ => rfl, fun h => by simp [hst] at h⟩
        unfold serviceUpdateTask
        rw [hfind]
        simp only [htl, hd, hst]
        rw [if_neg (by simp [hsv])]
        rw [@repoUpdate_of_mem db { t with title := a, status := s } t now ht rfl rfl]
    | some d =>
      cases hst : req.status with
      | none =>
        refine ⟨{ t with title := a, description := some d }, ?_, rfl, rfl, rfl,
          fun h => by simp [htl] at h, fun h => by simp [hd] at h, fun _ => rfl⟩
        unfold serviceUpdateTask
        rw [hfind]
        simp only [htl, hd, hst]
        rw [@repoUpdate_of_mem db { t with title := a, description := some d } t now ht rfl rfl]
      | some s =>
        have hsv := hstat s hst
        refine ⟨{ t with title := a, description := some d, status := s }, ?_, rfl, rfl,
          rfl, fun h => by simp [htl] at h, fun h => by simp [hd] at h,
          fun h => by simp [hst] at h⟩
        unfold serviceUpdateTask
        rw [hfind]
        simp only [htl, hd, hst]
        rw [if_neg (by simp [hsv])]
        rw [@repoUpdate_of_mem db { t with title := a, description := some d, status := s } t now ht rfl rfl]

/-- C4 (amended): fields absent from a PATCH body preserve the task's prior
values; an explicit JSON null — for the description included — decodes to
the same nil pointer as absence and also preserves the prior value, so the
description cannot be cleared; id, user_id, and created_at are never
changed, and updated_at is bumped; rows with other ids are untouched. -/
theorem partialUpdateSemantics (db : List Task) (t : Task) (body : UpdateBody) (now : Nat)
    (hwf : idsDistinct db) (ht : t ∈ db)
    (hvalid : validateUpdateReq (decodeUpdateBody body) = true)
    (hstat : ∀ s, body.status = JsonField.val s → statusIsValid s = true) :
    ∃ t2,
      (handlerUpdateTask db t.id t.userId body now).status = 200
      ∧ t2 ∈ (handlerUpdateTask db t.id t.userId body now).db
      ∧ (fieldToOption body.title = none → t2.title = t.title)
      ∧ (fieldToOption body.description = none → t2.description = t.description)
      ∧ (fieldToOption body.status = none → t2.status = t.status)
      ∧ t2.id = t.id ∧ t2.userId = t.userId ∧ t2.createdAt = t.createdAt ∧ t2.updatedAt = now
      ∧ (∀ r ∈ db, r.id ≠ t.id → r ∈ (handlerUpdateTask db t.id t.userId body now).db) := by
  obtain ⟨u, hsvc, hid, huid, hca, htl, hd, hst⟩ :=
    serviceUpdateTask_spec db t (decodeUpdateBody body) now hwf ht
      (fun s hs => hstat s (fieldToOption_eq_some.mp hs))
  have hred : handlerUpdateTask db t.id t.userId body now =
      { status := 200, task := some (taskToResponse { u with updatedAt := now })
        db := db.map (fun r =>
          if r.id == t.id && r.userId == t.userId then applyUpdates r u now else r) } := by
    unfold handlerUpdateTask
    simp [hvalid, hsvc]
  refine ⟨applyUpdates t u now, ?_, ?_, ?_, ?_, ?_, ?_, ?_, ?_, ?_, ?_⟩
  · rw [hred]
  · rw [hred]
    have hmm := List.mem_map_of_mem
      (fun r => if r.id == t.id && r.userId == t.userId then applyUpdates r u now else r) ht
    simpa using hmm
  · intro h
    have hu := htl h
    simp [applyUpdates, hu]
  · intro h
    have hu := hd h
    cases hdt : t.description <;> simp [applyUpdates, hu, hdt]
  · intro h
    have hu := hst h
    simp [applyUpdates, hu]
  · rfl
  · simp [applyUpdates, huid]
  · simp [applyUpdates, hca]
  · rfl
  · intro r hr hne
    rw [hred]
    have hc : (r.id == t.id) = false := beq_eq_false_iff_ne.mpr hne
    have hmm := List.mem_map_of_mem
      (fun r => if r.id == t.id && r.userId == t.userId then applyUpdates r u now else r) hr
    simpa [hc] using hmm

/-- Task with a description, used only by the C4 counterexample. -/
def tC4 : Task :=
  { id := 1, title := ("A"), description := some ("d"), status := ("TO_DO")
    userId := 2, createdAt := 3, updatedAt := 3 }

/-- PATCH body with an explicit null description, used only by the C4
counterexample. -/
def bodyC4 : UpdateBody :=
  { title := JsonField.absent, description := JsonField.null, status := JsonField.absent }

/-- Counterexample to C4 as stated: an explicit JSON null for `description`
does not clear the stored description — the row keeps `"d"`. -/
theorem nullDescriptionNotClearedCex :
    (handlerUpdateTask [tC4] 1 2 bodyC4 9).status = 200
    ∧ (handlerUpdateTask [tC4] 1 2 bodyC4 9).db.map Task.description = [some ("d")] := by
  decide

/-- All-absent PATCH body, used only by the C4 witness. -/
def bodyC4W : UpdateBody :=
  { title := JsonField.absent, description := JsonField.absent, status := JsonField.absent }

/-- Witness for partialUpdateSemantics at a concrete store and body. -/
theorem partialUpdateSemanticsWitness :
    ∃ t2,
      (handlerUpdateTask [tC4] tC4.id tC4.userId bodyC4W 9).status = 200
      ∧ t2 ∈ (handlerUpdateTask [tC4] tC4.id tC4.userId bodyC4W 9).db
      ∧ (fieldToOption bodyC4W.title = none → t2.title = tC4.title)
      ∧ (fieldToOption bodyC4W.description = none → t2.description = tC4.description)
      ∧ (fieldToOption bodyC4W.status = none → t2.status = tC4.status)
      ∧ t2.id = tC4.id ∧ t2.userId = tC4.userId ∧ t2.createdAt = tC4.createdAt
      ∧ t2.updatedAt = 9
      ∧ (∀ r ∈ [tC4], r.id ≠ tC4.id → r ∈ (handlerUpdateTask [tC4] tC4.id tC4.userId bodyC4W 9).db) :=
  partialUpdateSemantics [tC4] tC4 bodyC4W 9 (by decide) (by decide) (by decide)
    (fun s h => by simp [bodyC4W] at h)

/-- A list-cache key, rendered on the wire as
`tasks:<user_id>:<status-or-empty>:<page>:<limit>` (cacheKeyTasks in the
cache-aware service).  The user-id segment is colon-free, so the SCAN
pattern `tasks:<user_id>:*` used by invalidation selects exactly the keys
whose first segment is that user id; the keys are kept structured here. -/
structure CacheKey where
  userId : Nat
  status : String
  page : Int
  limit : Int
deriving DecidableEq, Repr

/-- Glob match of `tasks:<uid>:*` against a rendered key of this shape. -/
def keyMatchesUser (uid : Nat) (k : CacheKey) : Bool := k.userId == uid

/-- The cache: serialized TasksResponse values under their keys.  JSON
marshalling round-trips, so values are kept structured. -/
abbrev Cache : Type := List (CacheKey × TasksResponse)

/-- Redis GET of a list-cache key followed by a successful unmarshal. -/
def cacheLookup (c : Cache) (k : CacheKey) : Option TasksResponse :=
  (List.find? (fun kv => kv.1 == k) c).map (fun kv => kv.2)

/-- taskService.invalidateUserTasksCache (auth_service.go part 2, lines
356-363): SCAN `tasks:<uid>:*` and DEL every match. -/
def invalidateUserTasksCache (uid : Nat) (c : Cache) : Cache :=
  List.filter (fun kv => !(keyMatchesUser uid kv.1)) c

/-- The relational store plus the cache the cache-aware service works on. -/
structure SvcState where
  db : List Task
  cache : Cache

/-- Cache-aware taskService.CreateTask (auth_service.go part 2, lines
173-202): insert, then invalidate the user's cache keys before returning. -/
def cachedCreateTask (s : SvcState) (uid : Nat) (req : CreateTaskRequest)
    (newId now : Nat) : Except CustomError TaskResponse × SvcState :=
  let task : Task :=
    { id := newId, title := req.title, description := req.description
      status := ("TO_DO"), userId := uid, createdAt := now, updatedAt := now }
  (Except.ok (taskToResponse task),
    { db := s.db ++ [task], cache := invalidateUserTasksCache uid s.cache })

/-- Cache-aware taskService.GetTasks (auth_service.go part 2, lines
224-284): validate the filter, try the cache, else read the store and fill
the cache (a Redis SET overwrites, modelled by shadowing cons). -/
def cachedGetTasks (s : SvcState) (uid : Nat) (status : String) (page limit : Int) :
    Except CustomError TasksResponse × SvcState :=
  if status != ("") && !(statusIsValid status) then
    (Except.error (badRequestError (("invalid status: ") ++ status)), s)
  else
    match cacheLookup s.cache { userId := uid, status := status, page := page, limit := limit } with
    | some resp => (Except.ok resp, s)
    | none =>
      let qr := repoGetAll s.db uid status page.toNat limit.toNat
      let resp : TasksResponse :=
        { tasks := qr.1.map taskToResponse, total := qr.2, page := page, limit := limit
          totalPages := (Int.ofNat qr.2 + limit - 1) / limit }
      (Except.ok resp,
        { db := s.db
          cache := ({ userId := uid, status := status, page := page, limit := limit }, resp)
            :: s.cache })

/-- Cache-aware taskService.UpdateTask (auth_service.go part 2, lines
286-331): on a successful write, invalidate before returning; error paths
return the state untouched. -/
def cachedUpdateTask (s : SvcState) (taskId uid : Nat) (req : UpdateTaskRequest)
    (now : Nat) : Except CustomError TaskResponse × SvcState :=
  match serviceUpdateTask s.db taskId uid req now with
  | (Except.error e, _) => (Except.error e, s)
  | (Except.ok r, db2) =>
    (Except.ok r, { db := db2, cache := invalidateUserTasksCache uid s.cache })

/-- Cache-aware taskService.DeleteTask (auth_service.go part 2, lines
333-350). -/
def cachedDeleteTask (s : SvcState) (taskId uid : Nat) :
    Option CustomError × SvcState :=
  match repoDelete s.db taskId uid with
  | Except.error _ => (some (repositoryError ("failed to delete task")), s)
  | Except.ok db2 =>
    (none, { db := db2, cache := invalidateUserTasksCache uid s.cache })

/-- A cache holding no list entry of the given user. -/
def noUserKeys (uid : Nat) (c : Cache) : Prop :=
  ∀ kv ∈ c, keyMatchesUser uid kv.1 = false

/-- invalidateUserTasksCache removes every key of the user. -/
theorem invalidate_clears (uid : Nat) (c : Cache) :
    noUserKeys uid (invalidateUserTasksCache uid c) := by
  intro kv hmem
  have := (List.mem_filter.mp hmem).2
  simpa using this

/-- A cache without the user's keys cannot answer any list query of that
user. -/
theorem noUserKeys_lookup {uid : Nat} {c : Cache} (h : noUserKeys uid c)
    (st : String) (p l : Int) :
    cacheLookup c { userId := uid, status := st, page := p, limit := l } = none := by
  unfold cacheLookup
  cases hfind : List.find? (fun kv =>
      kv.1 == { userId := uid, status := st, page := p, limit := l }) c with
  | none => rfl
  | some kv =>
    have hmem := List.mem_of_find?_eq_some hfind
    have hp := List.find?_some hfind
    rw [beq_iff_eq] at hp
    have := h kv hmem
    rw [hp] at this
    simp [keyMatchesUser] at this

/-- C5: every successful cache-aware create, update, or delete for user U
leaves no cached list entry under `tasks:<U>:*` in the returned state, so a
following list read by U cannot be served a cached response produced before
the write. -/
theorem writeInvalidatesUserCache (s : SvcState) (uid : Nat) :
    (∀ req newId now r s2, cachedCreateTask s uid req newId now = (Except.ok r, s2) →
      noUserKeys uid s2.cache
      ∧ ∀ st p l, cacheLookup s2.cache { userId := uid, status := st, page := p, limit := l } = none)
    ∧ (∀ tid req now r s2, cachedUpdateTask s tid uid req now = (Except.ok r, s2) →
      noUserKeys uid s2.cache
      ∧ ∀ st p l, cacheLookup s2.cache { userId := uid, status := st, page := p, limit := l } = none)
    ∧ (∀ tid s2, cachedDeleteTask s tid uid = (none, s2) →
      noUserKeys uid s2.cache
      ∧ ∀ st p l, cacheLookup s2.cache { userId := uid, status := st, page := p, limit := l } = none) := by
  refine ⟨?_, ?_, ?_⟩
  · intro req newId now r s2 hok
    have hs2 : s2.cache = invalidateUserTasksCache uid s.cache := by
      unfold cachedCreateTask at hok
      have := congrArg Prod.snd hok
      simp only [] at this
      rw [← this]
    rw [hs2]
    exact ⟨invalidate_clears uid s.cache,
      fun st p l => noUserKeys_lookup (invalidate_clears uid s.cache) st p l⟩
  · intro tid req now r s2 hok
    unfold cachedUpdateTask at hok
    cases hsvc : serviceUpdateTask s.db tid uid req now with
    | mk res db2 =>
      rw [hsvc] at hok
      cases res with
      | error e => exact absurd hok (by simp)
      | ok r2 =>
        have hs2 : s2.cache = invalidateUserTasksCache uid s.cache := by
          have := congrArg Prod.snd hok
          simp only [] at this
          rw [← this]
        rw [hs2]
        exact ⟨invalidate_clears uid s.cache,
          fun st p l => noUserKeys_lookup (invalidate_clears uid s.cache) st p l⟩
  · intro tid s2 hok
    unfold cachedDeleteTask at hok
    cases hdel : repoDelete s.db tid uid with
    | error e =>
      rw [hdel] at hok
      exact absurd hok (by simp [repositoryError])
    | ok db2 =>
      rw [hdel] at hok
      have hs2 : s2.cache = invalidateUserTasksCache uid s.cache := by
        have := congrArg Prod.snd hok
        simp only [] at this
        rw [← this]
      rw [hs2]
      exact ⟨invalidate_clears uid s.cache,
        fun st p l => noUserKeys_lookup (invalidate_clears uid s.cache) st p l⟩

/-- Concrete pre-write state used only by the C5 witness: user 1 has a
cached first page. -/
def sC5 : SvcState :=
  { db := []
    cache := [({ userId := 1, status := (""), page := 1, limit := 10 },
      { tasks := [], total := 0, page := 1, limit := 10, totalPages := 0 })] }

/-- Request used only by the C5 witness. -/
def reqC5 : CreateTaskRequest := { title := ("A"), description := none }

/-- Witness for writeInvalidatesUserCache: after user 1 creates a task, the
cached page for user 1 is gone and a list read misses. -/
theorem writeInvalidatesUserCacheWitness :
    noUserKeys 1 (cachedCreateTask sC5 1 reqC5 5 6).2.cache
    ∧ ∀ st p l, cacheLookup (cachedCreateTask sC5 1 reqC5 5 6).2.cache
        { userId := 1, status := st, page := p, limit := l } = none :=
  (writeInvalidatesUserCache sC5 1).1 reqC5 5 6
    (taskToResponse
      { id := 5, title := ("A"), description := none, status := ("TO_DO"),
        userId := 1, createdAt := 6, updatedAt := 6 })
    (cachedCreateTask sC5 1 reqC5 5 6).2 rfl

/-- The three rate-limit headers set on admitted responses
(middleware.go, lines 183-185). -/
structure RateHeaders where
  limit : Int
  remaining : Int
  reset : Int
deriving DecidableEq, Repr

/-- What RateLimitMiddleware does with one request: pass it on with headers
set, or answer 429 with a JSON message (and no headers). -/
inductive RateOutcome where
  | admitted (headers : RateHeaders)
  | rejected (message : String)
deriving DecidableEq, Repr

/-- The 429 body's message naming the quota (middleware.go, line 161). -/
def rateQuotaMessage (limitR window : Int) : String :=
  ("Rate limit exceeded. Maximum ") ++ toString limitR ++ (" requests per ")
    ++ toString window ++ (" seconds")

/-- RateLimitMiddleware (middleware.go, lines 141-189) on one request from
one client IP inside one window: read the counter; reject at or above the
limit (no headers on that path); otherwise increment and set the three
headers, the remaining count clamped at zero. -/
def rateLimitStep (limitR window now : Int) (count : Nat) : RateOutcome × Nat :=
  if (count : Int) ≥ limitR then
    (RateOutcome.rejected (rateQuotaMessage limitR window), count)
  else
    (RateOutcome.admitted
      { limit := limitR
        remaining := if limitR - ((count : Int) + 1) < 0 then 0
          else limitR - ((count : Int) + 1)
        reset := now + window },
      count + 1)

/-- A burst of n requests from one IP inside one window, counter starting
absent (read as zero). -/
def rateLimitRun (limitR window now : Int) : Nat → List RateOutcome × Nat
  | 0 => ([], 0)
  | n + 1 =>
    let prev := rateLimitRun limitR window now n
    let step := rateLimitStep limitR window now prev.2
    (prev.1 ++ [step.1], step.2)

/-- Outcome of the (i+1)-th request of a burst. -/
def nthOutcome (limitR window now : Int) (i : Nat) : RateOutcome :=
  (rateLimitStep limitR window now (rateLimitRun limitR window now i).2).1

/-- The X-RateLimit-Remaining header of a response, when the response
carries one. -/
def outcomeRemainingHeader : RateOutcome → Option Int
  | RateOutcome.admitted h => some h.remaining
  | RateOutcome.rejected _ => none

/-- While the burst stays within the limit, every request increments the
counter, so after i admitted requests the counter reads i. -/
theorem rateLimitRun_count (L W now : Int) :
    ∀ i : Nat, (i : Int) ≤ L → (rateLimitRun L W now i).2 = i := by
  intro i
  induction i with
  | zero => intro _; rfl
  | succ n ih =>
    intro h
    have hn : (n : Int) ≤ L := by push_cast at h ⊢; omega
    have hlt : ¬((n : Int) ≥ L) := by push_cast at h ⊢; omega
    show (rateLimitRun L W now (n + 1)).2 = n + 1
    simp only [rateLimitRun]
    rw [ih hn]
    unfold rateLimitStep
    rw [if_neg hlt]

/-- C6 (amended): with limit N, the first N requests of a burst are
admitted carrying X-RateLimit-Limit = N, X-RateLimit-Remaining = N−(i+1),
and X-RateLimit-Reset = now+W; the (N+1)-th is rejected with 429 naming the
quota, but that rejected response carries no rate-limit headers. -/
theorem rateLimitEnvelope (L W now : Int) (i : Nat) :
    ((i : Int) < L →
      nthOutcome L W now i = RateOutcome.admitted
        { limit := L, remaining := L - ((i : Int) + 1), reset := now + W })
    ∧ ((i : Int) = L →
      nthOutcome L W now i = RateOutcome.rejected (rateQuotaMessage L W)
      ∧ outcomeRemainingHeader (nthOutcome L W now i) = none) := by
  constructor
  · intro hlt
    have hcnt := rateLimitRun_count L W now i (le_of_lt hlt)
    unfold nthOutcome
    rw [hcnt]
    unfold rateLimitStep
    rw [if_neg (by omega : ¬((i : Int) ≥ L))]
    rw [if_neg (by omega : ¬(L - ((i : Int) + 1) < 0))]
  · intro heq
    have hcnt := rateLimitRun_count L W now i (le_of_eq heq)
    have h1 : (i : Int) ≥ L := by omega
    constructor
    · unfold nthOutcome
      rw [hcnt]
      unfold rateLimitStep
      rw [if_pos h1]
    · unfold nthOutcome
      rw [hcnt]
      unfold rateLimitStep
      rw [if_pos h1]
      rfl

/-- Counterexample to C6 as stated: with limit 3 and window 60, the fourth
request is rejected with the quota message but reports no
X-RateLimit-Remaining header at all, rather than reporting 0. -/
theorem rejectedResponseNoHeadersCex :
    nthOutcome 3 60 1000 3 = RateOutcome.rejected (rateQuotaMessage 3 60)
    ∧ outcomeRemainingHeader (nthOutcome 3 60 1000 3) ≠ some 0 := by decide

/-- Witness for rateLimitEnvelope: limit 3, window 60 — the second request
is admitted with remaining 1, the fourth rejected without headers. -/
theorem rateLimitEnvelopeWitness :
    nthOutcome 3 60 1000 1 = RateOutcome.admitted
      { limit := 3, remaining := 1, reset := 1060 }
    ∧ (nthOutcome 3 60 1000 3 = RateOutcome.rejected (rateQuotaMessage 3 60)
      ∧ outcomeRemainingHeader (nthOutcome 3 60 1000 3) = none) :=
  ⟨(rateLimitEnvelope 3 60 1000 1).1 (by decide),
   (rateLimitEnvelope 3 60 1000 3).2 (by decide)⟩

/-- The digit run of `strconv.Atoi` over the characters: accumulate decimal
digits (ASCII codes 48-57); any other character fails the parse.  Atoi
works byte-wise, so characters carry the comparison. -/
def parseDigitsAux : List Char → Nat → Option Nat
  | [], acc => some acc
  | c :: cs, acc =>
    if 48 ≤ c.toNat ∧ c.toNat ≤ 57 then parseDigitsAux cs (acc * 10 + (c.toNat - 48))
    else none

/-- Go's `strconv.Atoi` with its error discarded, as the handler does
(`page, _ := strconv.Atoi(...)`, part_002 lines 107-108): an optional sign
(ASCII 45 minus, 43 plus) then digits; a failed parse leaves the Go zero
value 0. -/
def goAtoi (s : String) : Int :=
  match s.toList with
  | [] => 0
  | c :: cs =>
    if c.toNat = 45 then
      match parseDigitsAux cs 0 with
      | some n => -(n : Int)
      | none => 0
    else if c.toNat = 43 then
      match parseDigitsAux cs 0 with
      | some n => (n : Int)
      | none => 0
    else
      match parseDigitsAux (c :: cs) 0 with
      | some n => (n : Int)
      | none => 0

/-- The effective page: `c.DefaultQuery("page", "1")`, Atoi, clamp below
at 1 (part_002, lines 107-111). -/
def effectivePage (q : Option String) : Int :=
  if goAtoi (q.getD ("1")) < 1 then 1 else goAtoi (q.getD ("1"))

/-- The effective limit: `c.DefaultQuery("limit", "10")`, Atoi, out-of-range
replaced by 10 (part_002, lines 108-115). -/
def effectiveLimit (q : Option String) : Int :=
  if goAtoi (q.getD ("10")) < 1 || goAtoi (q.getD ("10")) > 100 then 10
  else goAtoi (q.getD ("10"))

/-- TaskHandler.GetTasks (part_002, lines 85-125): normalize the query
parameters, then call the service. -/
def handlerGetTasks (db : List Task) (uid : Nat) (status : String)
    (pageQ limitQ : Option String) : Except CustomError TasksResponse :=
  serviceGetTasks db uid status (effectivePage pageQ) (effectiveLimit limitQ)

/-- C7: missing page and limit default to 1 and 10; out-of-range values are
normalized so the effective inputs satisfy page ≥ 1 and 1 ≤ limit ≤ 100;
the response reports the effective values used for the query. -/
theorem listInputNormalization (db : List Task) (uid : Nat) (status : String)
    (pageQ limitQ : Option String)
    (hs : status = ("") ∨ statusIsValid status = true) :
    1 ≤ effectivePage pageQ ∧ 1 ≤ effectiveLimit limitQ ∧ effectiveLimit limitQ ≤ 100
    ∧ (pageQ = none → effectivePage pageQ = 1)
    ∧ (limitQ = none → effectiveLimit limitQ = 10)
    ∧ ∃ resp, handlerGetTasks db uid status pageQ limitQ = Except.ok resp
        ∧ resp.page = effectivePage pageQ ∧ resp.limit = effectiveLimit limitQ := by
  have hp1 : 1 ≤ effectivePage pageQ := by
    unfold effectivePage
    split <;> omega
  have hl12 : 1 ≤ effectiveLimit limitQ ∧ effectiveLimit limitQ ≤ 100 := by
    unfold effectiveLimit
    split
    · omega
    · rename_i h
      simp only [Bool.or_eq_true, decide_eq_true_eq] at h
      omega
  refine ⟨hp1, hl12.1, hl12.2, ?_, ?_, ?_⟩
  · intro h
    subst h
    decide
  · intro h
    subst h
    decide
  · have hcondn : ¬((status != ("") && !(statusIsValid status)) = true) := by
      rcases hs with h | h
      · subst h; simp
      · simp [h]
    have hpc : ¬(effectivePage pageQ < 1) := by omega
    have hlcn : ¬((effectiveLimit limitQ < 1 || effectiveLimit limitQ > 100) = true) := by
      simp only [Bool.or_eq_true, decide_eq_true_eq]
      omega
    simp only [handlerGetTasks, serviceGetTasks]
    rw [if_neg hpc, if_neg hlcn, if_neg hcondn]
    exact ⟨_, rfl, rfl, rfl⟩

/-- Witness for listInputNormalization: no page parameter, limit sent as
500 — the effective pair is (1, 10) and the response echoes it. -/
theorem listInputNormalizationWitness :
    1 ≤ effectivePage none ∧ 1 ≤ effectiveLimit (some ("500"))
    ∧ effectiveLimit (some ("500")) ≤ 100
    ∧ (none = (none : Option String) → effectivePage none = 1)
    ∧ (some ("500") = (none : Option String) → effectiveLimit (some ("500")) = 10)
    ∧ ∃ resp, handlerGetTasks [] 1 ("") none (some ("500")) = Except.ok resp
        ∧ resp.page = effectivePage none ∧ resp.limit = effectiveLimit (some ("500")) :=
  listInputNormalization [] 1 ("") none (some ("500")) (Or.inl rfl)

/-- C8 (amended): every list page is sorted by created_at descending; rows
with equal created_at keep the store's row order — no id tiebreak is
applied. -/
theorem listOrderingSorted (db : List Task) (uid : Nat) (status : String)
    (page limit : Nat) :
    List.Sorted createdDescOrder (repoGetAll db uid status page limit).1 := by
  have hs : List.Sorted createdDescOrder
      (List.insertionSort createdDescOrder (rowsForUser db uid status)) :=
    List.sorted_insertionSort createdDescOrder _
  have hsub : (((List.insertionSort createdDescOrder (rowsForUser db uid status)).drop
      ((page - 1) * limit)).take limit).Sublist
      (List.insertionSort createdDescOrder (rowsForUser db uid status)) :=
    (List.take_sublist _ _).trans (List.drop_sublist _ _)
  exact List.Pairwise.sublist hsub hs

/-- Tied task with the smaller id, used only by the C8 counterexample. -/
def tC8a : Task :=
  { id := 1, title := ("A"), description := none, status := ("TO_DO")
    userId := 7, createdAt := 5, updatedAt := 5 }

/-- Tied task with the larger id, used only by the C8 counterexample. -/
def tC8b : Task :=
  { id := 2, title := ("B"), description := none, status := ("TO_DO")
    userId := 7, createdAt := 5, updatedAt := 5 }

/-- Counterexample to C8 as stated: two stores holding the same two tasks
(equal created_at) in opposite row orders return the tie in opposite
orders, so equal-created_at rows are not deterministically ordered by id. -/
theorem listOrderingTiebreakCex :
    (repoGetAll [tC8b, tC8a] 7 ("") 1 10).1 = [tC8b, tC8a]
    ∧ (repoGetAll [tC8a, tC8b] 7 ("") 1 10).1 = [tC8a, tC8b]
    ∧ List.Perm [tC8b, tC8a] [tC8a, tC8b] := by decide

/-- config.Config (part_001, lines 10-37). -/
structure Config where
  appEnv : String
  appPort : String
  logLevel : String
  logFormat : String
  dbHost : String
  dbPort : String
  dbUser : String
  dbPassword : String
  dbName : String
  dbSslMode : String
  redisHost : String
  redisPort : String
  redisPassword : String
  jwtSecret : String
  bcryptCost : Int
  rateLimitRequests : Int
  rateLimitWindow : Int
deriving DecidableEq, Repr

/-- config.getEnv (part_001, lines 66-71); `os.Getenv` answers the empty
string for an unset variable, so the environment is a total map into
strings. -/
def getEnv (env : String → String) (key dflt : String) : String :=
  if env key != ("") then env key else dflt

/-- config.getEnvAsInt (part_001, lines 73-79). -/
def getEnvAsInt (env : String → String) (key : String) (dflt : Int) : Int :=
  match (getEnv env key ("")).toList with
  | [] => dflt
  | c :: cs =>
    match (if c.toNat = 45 then parseDigitsAux cs 0
           else if c.toNat = 43 then parseDigitsAux cs 0
           else parseDigitsAux (c :: cs) 0) with
    | some n => if c.toNat = 45 then -(n : Int) else (n : Int)
    | none => dflt

/-- config.Load (part_001, lines 39-64): every field it populates, with the
code's defaults.  JWTSecret and BcryptCost are declared in the struct but
never assigned by Load, so they keep the Go zero values. -/
def configLoad (env : String → String) : Config :=
  { appEnv := getEnv env ("APP_ENV") ("development")
    appPort := getEnv env ("APP_PORT") ("3000")
    logLevel := getEnv env ("LOG_LEVEL") ("info")
    logFormat := getEnv env ("LOG_FORMAT") ("text")
    dbHost := getEnv env ("DB_HOST") ("localhost")
    dbPort := getEnv env ("DB_PORT") ("5432")
    dbUser := getEnv env ("DB_USER") ("corenglish")
    dbPassword := getEnv env ("DB_PASSWORD") ("corenglish")
    dbName := getEnv env ("DB_NAME") ("corenglish")
    dbSslMode := getEnv env ("DB_SSL_MODE") ("disable")
    redisHost := getEnv env ("REDIS_HOST") ("localhost")
    redisPort := getEnv env ("REDIS_PORT") ("6379")
    redisPassword := getEnv env ("REDIS_PASSWORD") ("")
    jwtSecret := ("")
    bcryptCost := 0
    rateLimitRequests := getEnvAsInt env ("RATE_LIMIT_REQUESTS") 100
    rateLimitWindow := getEnvAsInt env ("RATE_LIMIT_WINDOW") 60 }

/-- Environment with the security variables set, used only by the C9
theorem. -/
def envC9 : String → String := fun k =>
  if k = ("JWT_SECRET") then ("topsecret")
  else if k = ("BCRYPT_COST") then ("12")
  else if k = ("RATE_LIMIT_REQUESTS") then ("3")
  else ("")

/-- C9 failing input: config.Load never reads JWT_SECRET or BCRYPT_COST —
with both set in the environment the loaded configuration still carries the
zero values, while the variables Load does read come through. -/
theorem configLoadIgnoresSecrets :
    envC9 ("JWT_SECRET") = ("topsecret")
    ∧ envC9 ("BCRYPT_COST") = ("12")
    ∧ (configLoad envC9).jwtSecret = ("")
    ∧ (configLoad envC9).bcryptCost = 0
    ∧ (configLoad envC9).rateLimitRequests = 3
    ∧ (configLoad envC9).appEnv = ("development") := by decide

/-- The payload pkg/token's ValidateToken yields: the claims carrying
auth_id (the user id string). -/
structure TokenPayload where
  authId : String
deriving DecidableEq, Repr

/-- What AuthMiddleware does with a request: reject with 401 and a message,
or stash the parsed user id in the request context. -/
inductive AuthOutcome where
  | unauthorized (message : String)
  | authorized (userId : Nat)
deriving DecidableEq, Repr

/-- AuthMiddleware (middleware.go, lines 104-138).  pkg/token is not among
the sources, so token validation and uuid parsing are taken as function
parameters; the middleware invokes `token.ValidateToken(bearerToken[1])`
with only the token string — its `jwtSecret` argument is never consulted. -/
def authMiddleware (jwtSecret : String)
    (validateToken : String → Except String TokenPayload)
    (parseUuid : String → Option Nat)
    (authHeader : String) : AuthOutcome :=
  if authHeader = ("") then AuthOutcome.unauthorized ("Authorization header is required")
  else
    let parts := authHeader.splitOn ("Bearer ")
    if h : parts.length = 2 then
      match validateToken (parts.get ⟨1, by omega⟩) with
      | Except.error e => AuthOutcome.unauthorized e
      | Except.ok payload =>
        match parseUuid payload.authId with
        | none => AuthOutcome.unauthorized ("Invalid user ID in token")
        | some uid => AuthOutcome.authorized uid
    else AuthOutcome.unauthorized ("len token must be 2")

/-- C10: the authentication outcome is independent of the configured JWT
secret at this layer — for any two secrets and the same request,
AuthMiddleware produces identical results, the secret parameter being
dead. -/
theorem authMiddlewareSecretIndependent (s1 s2 : String)
    (validateToken : String → Except String TokenPayload)
    (parseUuid : String → Option Nat) (authHeader : String) :
    authMiddleware s1 validateToken parseUuid authHeader =
      authMiddleware s2 validateToken parseUuid authHeader := rfl

end TaskApp
